import Mathlib

/-!
Verification of the chain-state synchronization component (tplr/chain.py).

Text is modelled as a list of Unicode code points (one Char per Python
character), so Python string slicing, concatenation and length map to
List.take, List.drop, List.append and List.length. Dictionaries are
modelled as association lists with Python dict semantics (insertion
order preserved, last write wins for duplicate keys).
-/

set_option maxRecDepth 100000

namespace Templar

/-- Model of a Python string: a sequence of Unicode code points. -/
abbrev Str := List Char

/-- Model of the Bucket record (schemas.Bucket) as used by chain.py:
four string fields, compared field-wise by value. -/
structure Bucket where
  name : Str
  account_id : Str
  access_key_id : Str
  secret_access_key : Str
deriving DecidableEq

/-- The payload that ChainManager.commit submits: the plain concatenation
account_id plus access_key_id plus secret_access_key (chain.py lines 191-194).
No padding, truncation or width check is performed. -/
def commit (b : Bucket) : Str :=
  b.account_id ++ b.access_key_id ++ b.secret_access_key

/-- The submitRecord calls performed by one run of ChainManager.commit:
always exactly one submission, carrying the concatenation (line 194). -/
def commit_submissions (b : Bucket) : List Str :=
  [commit b]

/-- Slicing used by both decode paths once a 128-character text is in hand:
name and account_id are characters 0 to 31, access_key_id 32 to 63,
secret_access_key 64 onward (chain.py lines 284-289 and 342-347). -/
def bucketOfConcat (s : Str) : Bucket :=
  { name := s.take 32
    account_id := s.take 32
    access_key_id := (s.drop 32).take 32
    secret_access_key := s.drop 64 }

/-- Pure part of ChainManager.get_commitment after the ledger read
(chain.py lines 278-291): reject unless the text has length exactly 128,
otherwise slice it into a Bucket. The none result models the raised
ValueError. -/
def get_commitment (s : Str) : Option Bucket :=
  if s.length = 128 then some (bucketOfConcat s) else none

/-- One run of ChainManager.try_commit (chain.py lines 199-229), given the
observed record (none models a failed ledger read, an absent record or a
failed decode, all of which raise and are caught) and the intended bucket.
Returns the list of payloads submitted to the chain: empty when the
concatenated comparison strings match, otherwise the single commit payload. -/
def try_commit (observed : Option Bucket) (intended : Bucket) : List Str :=
  match observed with
  | none => [commit intended]
  | some c =>
      if intended.name ++ intended.access_key_id ++ intended.secret_access_key
          = c.name ++ c.access_key_id ++ c.secret_access_key
      then []
      else [commit intended]

/-- One reconciliation pass over a ledger state (none models an unreadable
or absent commitment). Returns the ledger state afterwards (a successful
commit replaces the stored payload) and the number of publishes made. -/
def reconcile_once (ledger : Option Str) (intended : Bucket) :
    Option Str × Nat :=
  match try_commit (ledger.bind get_commitment) intended with
  | [] => (ledger, 0)
  | p :: _ => (some p, 1)

/-- Total number of publishes made by two reconciliation passes in
succession with no external change between them: the second pass reads
the ledger state left by the first. -/
def reconcile_twice_pubs (ledger : Option Str) (intended : Bucket) : Nat :=
  let r1 := reconcile_once ledger intended
  r1.2 + (reconcile_once r1.1 intended).2

/-- Value of a hexadecimal digit character, none for a non-digit,
as accepted by Python bytes.fromhex. -/
def hexVal (c : Char) : Option Nat :=
  if 48 ≤ c.toNat ∧ c.toNat ≤ 57 then some (c.toNat - 48)
  else if 97 ≤ c.toNat ∧ c.toNat ≤ 102 then some (c.toNat - 87)
  else if 65 ≤ c.toNat ∧ c.toNat ≤ 70 then some (c.toNat - 55)
  else none

/-- ASCII whitespace, skipped between byte pairs by Python bytes.fromhex. -/
def isAsciiWs (c : Char) : Bool :=
  ([9, 10, 11, 12, 13, 32] : List Nat).contains c.toNat

/-- Model of Python bytes.fromhex: ASCII whitespace is skipped between
byte pairs, each byte is two adjacent hexadecimal digits, anything else
(including an odd trailing digit) fails. -/
def fromhex : List Char → Option (List Nat)
  | [] => some []
  | c :: rest =>
      if isAsciiWs c then fromhex rest
      else
        match hexVal c, rest with
        | some hi, d :: rest2 =>
            match hexVal d with
            | some lo => (fromhex rest2).map (fun bs => (hi * 16 + lo) :: bs)
            | none => none
        | _, _ => none

/-- Model of Python bytes.decode with the strict utf-8 codec: rejects
stray continuation bytes, overlong encodings, surrogates, code points
above 0x10FFFF and truncated sequences. -/
def utf8Decode : List Nat → Option (List Char)
  | [] => some []
  | [b] => if b < 128 then some [Char.ofNat b] else none
  | b :: b2 :: rest =>
      if b < 128 then
        (utf8Decode (b2 :: rest)).map (fun cs => Char.ofNat b :: cs)
      else if b < 194 then none
      else if b < 224 then
        if 128 ≤ b2 ∧ b2 < 192 then
          (utf8Decode rest).map
            (fun cs => Char.ofNat ((b - 192) * 64 + (b2 - 128)) :: cs)
        else none
      else if b < 240 then
        match rest with
        | [] => none
        | b3 :: rest2 =>
            if (128 ≤ b2 ∧ b2 < 192) ∧ (128 ≤ b3 ∧ b3 < 192)
                ∧ ¬(b = 224 ∧ b2 < 160) ∧ ¬(b = 237 ∧ 160 ≤ b2) then
              (utf8Decode rest2).map
                (fun cs =>
                  Char.ofNat ((b - 224) * 4096 + (b2 - 128) * 64 + (b3 - 128))
                    :: cs)
            else none
      else if b < 245 then
        match rest with
        | b3 :: b4 :: rest3 =>
            if (128 ≤ b2 ∧ b2 < 192) ∧ (128 ≤ b3 ∧ b3 < 192)
                ∧ (128 ≤ b4 ∧ b4 < 192)
                ∧ ¬(b = 240 ∧ b2 < 144) ∧ ¬(b = 244 ∧ 144 ≤ b2) then
              (utf8Decode rest3).map
                (fun cs =>
                  Char.ofNat ((b - 240) * 262144 + (b2 - 128) * 4096
                    + (b3 - 128) * 64 + (b4 - 128)) :: cs)
            else none
        | _ => none
      else none

/-- Unicode whitespace as recognised by Python str.strip with no
argument. -/
def isPySpace (c : Char) : Bool :=
  ([9, 10, 11, 12, 13, 28, 29, 30, 31, 32, 133, 160, 5760,
    8192, 8193, 8194, 8195, 8196, 8197, 8198, 8199, 8200, 8201, 8202,
    8232, 8233, 8239, 8287, 12288] : List Nat).contains c.toNat

/-- Model of Python str.strip(): removes leading and trailing Unicode
whitespace. -/
def pystrip (l : Str) : Str :=
  ((l.dropWhile isPySpace).reverse.dropWhile isPySpace).reverse

/-- Strip an optional leading 0x marker, exactly as the startswith check
in chain.py lines 331-332. -/
def strip0x : Str → Str
  | '0' :: 'x' :: rest => rest
  | l => l

/-- The hex-then-utf8 stage of the bulk decode path: strip the optional
0x marker, hex-decode to bytes, utf-8 decode to text (chain.py lines
331-335 before the strip call). -/
def hexUtf8 (raw : Str) : Option Str :=
  (fromhex (strip0x raw)).bind utf8Decode

/-- Per-record decode of a raw field payload in ChainManager.get_commitments
(chain.py lines 331-347): hex plus utf-8 decode, strip surrounding
whitespace, require length exactly 128, slice into a Bucket. The none
result models the logged-and-skipped failure. -/
def decode_field (raw : Str) : Option Bucket :=
  match hexUtf8 raw with
  | none => none
  | some t =>
      if (pystrip t).length = 128 then some (bucketOfConcat (pystrip t))
      else none

/-- Lookup in a Python dict built from an association list: for a
duplicated key the last binding wins, absent keys give none. -/
def dictGet {α β : Type} [DecidableEq α] (m : List (α × β)) (k : α) :
    Option β :=
  ((m.filter (fun p => p.1 = k)).getLast?).map Prod.snd

/-- Python dict insertion: overwrite in place when the key is present,
append otherwise. -/
def dinsert (m : List (Nat × Bucket)) (k : Nat) (v : Bucket) :
    List (Nat × Bucket) :=
  if m.any (fun p => p.1 = k) then
    m.map (fun p => if p.1 = k then (k, v) else p)
  else m ++ [(k, v)]

/-- Processing of one ledger entry inside the loop of
ChainManager.get_commitments (chain.py lines 318-353): resolve the
publisher hotkey to a UID (unknown keys are dropped), require a usable
field payload (none models a missing or malformed fields envelope),
decode it, and on success store the bucket under the UID; every failure
leaves the accumulator untouched. -/
def commit_step (hotkey_to_uid : List (Str × Nat))
    (acc : List (Nat × Bucket)) (e : Str × Option Str) :
    List (Nat × Bucket) :=
  match dictGet hotkey_to_uid e.1 with
  | none => acc
  | some uid =>
      match e.2 with
      | none => acc
      | some raw =>
          match decode_field raw with
          | none => acc
          | some b => dinsert acc uid b

/-- Model of ChainManager.get_commitments (chain.py lines 293-355): fold
the per-entry step over the enumerated ledger entries, starting from the
empty index. -/
def get_commitments (hotkey_to_uid : List (Str × Nat))
    (entries : List (Str × Option Str)) : List (Nat × Bucket) :=
  entries.foldl (commit_step hotkey_to_uid) []

/-- Model of ChainManager.update_peers_with_buckets (chain.py lines
412-422): the peers are the keys of the commitment index whose stake,
defaulting to 0 when the UID is absent from the stake table, is at most
10000. -/
def update_peers_with_buckets (commitments : List (Nat × Bucket))
    (stakes : List (Nat × Int)) : List Nat :=
  (commitments.map Prod.fst).filter
    (fun uid => (dictGet stakes uid).getD 0 ≤ 10000)

/-- Mutable synchronization state owned by the manager: the commitment
index and the derived peer list. -/
structure ChainState where
  commitments : List (Nat × Bucket)
  peers : List Nat
deriving DecidableEq

/-- One refresh pass, shared by ChainManager.fetch_commitments (lines
376-390) and the periodic loop (lines 114-123): decode the enumerated
entries; when the resulting index is empty keep the previous state
untouched, otherwise swap the index in and recompute the peers. -/
def fetch_commitments (st : ChainState) (stakes : List (Nat × Int))
    (hotkey_to_uid : List (Str × Nat))
    (entries : List (Str × Option Str)) : ChainState :=
  let cs := get_commitments hotkey_to_uid entries
  if cs.isEmpty then st
  else { commitments := cs, peers := update_peers_with_buckets cs stakes }

/-- Block and window tracking state of the manager. -/
structure Clock where
  current_block : Nat
  current_window : Nat
deriving DecidableEq

/-- Model of the handler installed by ChainManager.block_listener
(chain.py lines 164-172): store the notified block number, then update
the window when the floor-divided window of the new block differs from
the stored one. -/
def block_handler (blocks_per_window : Nat) (st : Clock) (n : Nat) :
    Clock :=
  let st1 : Clock := { st with current_block := n }
  if st1.current_block / blocks_per_window ≠ st1.current_window then
    { st1 with current_window := st1.current_block / blocks_per_window }
  else st1

/-- Concrete 32-character account id used in examples. -/
def ca : Str := List.replicate 32 'a'

/-- Concrete 32-character access key id used in examples. -/
def ck : Str := List.replicate 32 'k'

/-- Concrete 64-character secret access key used in examples. -/
def cs64 : Str := List.replicate 64 's'

/-- Canonical-width bucket: 32-char account and access key, 64-char
secret, name equal to account id. -/
def bC : Bucket := ⟨ca, ca, ck, cs64⟩

/-- Bucket with a 1-character secret access key, within the spec's
at-most-64 bound. -/
def bShort : Bucket := ⟨ca, ca, ck, ['s']⟩

/-- Canonical-width bucket whose name differs from its account id. -/
def bMism : Bucket := ⟨List.replicate 32 'n', ca, ck, cs64⟩

/-- Bucket whose account id has 33 characters, one over the fixed
32-character width. -/
def bOver : Bucket := ⟨'a' :: ca, 'a' :: ca, ck, cs64⟩

/-- Hex wire payload decoding to 128 letters a. -/
def rawGood : Str := (List.replicate 128 (['6', '1'] : Str)).flatten

/-- Hex wire payload decoding to 100 letters b: malformed, wrong length. -/
def rawBad : Str := (List.replicate 100 (['6', '2'] : Str)).flatten

/-- Hex wire payload decoding to 129 characters: 128 letters a followed
by a newline. -/
def rawTrail : Str := rawGood ++ ['0', 'a']

/-- The 128-character text encoded by rawGood. -/
def textGood : Str := List.replicate 128 'a'

/-- The 129-character text encoded by rawTrail. -/
def textTrail : Str := textGood ++ ['\n']

/-- Example hotkey of the first publisher. -/
def hkey1 : Str := ['h', '1']

/-- Example hotkey of the second publisher. -/
def hkey2 : Str := ['h', '2']

/-- Example hotkey-to-UID table with two known publishers. -/
def exHk : List (Str × Nat) := [(hkey1, 1), (hkey2, 2)]

/-- Example batch: a malformed entry and a well-formed sibling. -/
def exEntries : List (Str × Option Str) :=
  [(hkey1, some rawBad), (hkey2, some rawGood)]

/-- Example commitment index with slots 1, 2, 3. -/
def exIndex : List (Nat × Bucket) := [(1, bC), (2, bC), (3, bC)]

/-- Example stake table from the spec's peer classification scenario. -/
def exStakes : List (Nat × Int) := [(1, 500), (2, 20000), (3, 9999)]

/-- Example prior manager state with a nonempty index and peer list. -/
def st0 : ChainState := ⟨[(5, bC)], [5]⟩

/-- Round-trip helper: parsing the concatenation of fields of canonical
widths 32, 32, 64 gives back the fields, the name set to the account id. -/
theorem get_commitment_concat (a k s : Str) (ha : a.length = 32)
    (hk : k.length = 32) (hs : s.length = 64) :
    get_commitment (a ++ k ++ s) = some ⟨a, a, k, s⟩ := by
  have hlen : (a ++ k ++ s).length = 128 := by
    simp [List.length_append, ha, hk, hs]
  have h1 : (a ++ (k ++ s)).take 32 = a := by
    rw [← ha, List.take_left]
  have hd : (a ++ (k ++ s)).drop 32 = k ++ s := by
    rw [← ha, List.drop_left]
  have h2 : ((a ++ (k ++ s)).drop 32).take 32 = k := by
    rw [hd, ← hk, List.take_left]
  have h3 : (a ++ (k ++ s)).drop 64 = s := by
    rw [← List.append_assoc]
    have h64 : (a ++ k).length = 64 := by simp [ha, hk]
    rw [← h64, List.drop_left]
  unfold get_commitment bucketOfConcat
  rw [if_pos hlen]
  simp [h1, h2, h3]

/-- A run of try_commit either performs no submission or submits exactly
the intended payload. -/
theorem try_commit_cases (o : Option Bucket) (i : Bucket) :
    try_commit o i = [] ∨ try_commit o i = [commit i] := by
  cases o with
  | none => right; rfl
  | some c =>
      by_cases h : i.name ++ i.access_key_id ++ i.secret_access_key
          = c.name ++ c.access_key_id ++ c.secret_access_key
      · left; simp [try_commit, h]
      · right; simp only [try_commit, if_neg h]

/-- A successfully parsed commitment has fields of widths 32, 32, 64 and
its comparison concatenation is the original text. -/
theorem get_commitment_widths {s : Str} {c : Bucket}
    (h : get_commitment s = some c) :
    c.name.length = 32 ∧ c.access_key_id.length = 32 ∧
      c.secret_access_key.length = 64 ∧
      c.name ++ c.access_key_id ++ c.secret_access_key = s := by
  unfold get_commitment at h
  split at h
  · rename_i hlen
    injection h with h
    subst h
    unfold bucketOfConcat
    refine ⟨?_, ?_, ?_, ?_⟩
    · simp [List.length_take, hlen]
    · simp [List.length_take, List.length_drop, hlen]
    · simp [List.length_drop, hlen]
    · rw [List.append_assoc]
      have : s.drop 64 = (s.drop 32).drop 32 := by
        rw [List.drop_drop]
      rw [this, List.take_append_drop, List.take_append_drop]
  · exact absurd h (by simp)

/-- C1 (amended): for a BucketRecord whose accountId and accessKeyId have
exactly 32 characters and whose secretAccessKey has exactly 64 characters,
decoding the commit concatenation with the get_commitment slicing
reproduces accountId, accessKeyId and secretAccessKey exactly, and the
decoded name equals the accountId. (As originally stated, with
secretAccessKey merely at most 64 characters, the claim is false: commit
does not pad, so a shorter secret gives a payload of length below 128
that the decoder rejects.) -/
theorem c1_roundtrip_exact_widths (b : Bucket)
    (ha : b.account_id.length = 32) (hk : b.access_key_id.length = 32)
    (hs : b.secret_access_key.length = 64) :
    get_commitment (commit b)
      = some ⟨b.account_id, b.account_id, b.access_key_id,
          b.secret_access_key⟩ :=
  get_commitment_concat _ _ _ ha hk hs

/-- C1 counterexample: a record with 32-character accountId and
accessKeyId and a 1-character secretAccessKey (valid widths per the
claim) whose encoded form does not decode at all. -/
theorem c1_roundtrip_cex :
    bShort.account_id.length = 32 ∧ bShort.access_key_id.length = 32 ∧
      bShort.secret_access_key.length ≤ 64 ∧
      get_commitment (commit bShort) = none := by decide

/-- C1 witness: the round-trip theorem applied to a concrete canonical
record. -/
theorem c1_roundtrip_exact_widths_witness :
    get_commitment (commit bC) = some ⟨ca, ca, ck, cs64⟩ :=
  c1_roundtrip_exact_widths bC (by decide) (by decide) (by decide)

/-- C2 (confirmed): when a refresh pass decodes no (slot, record) pair at
all, the manager state, commitment index and peer list included, is left
exactly as it was. -/
theorem c2_fetch_empty_keeps_state (st : ChainState)
    (stakes : List (Nat × Int)) (hk : List (Str × Nat))
    (entries : List (Str × Option Str))
    (h : get_commitments hk entries = []) :
    fetch_commitments st stakes hk entries = st := by
  simp [fetch_commitments, h]

/-- C2 witness: a refresh over an entirely-undecodable batch leaves a
concrete nonempty prior state untouched. -/
theorem c2_fetch_empty_keeps_state_witness :
    get_commitments exHk [(hkey1, some rawBad)] = [] ∧
      fetch_commitments st0 exStakes exHk [(hkey1, some rawBad)] = st0 :=
  ⟨by decide,
    c2_fetch_empty_keeps_state st0 exStakes exHk [(hkey1, some rawBad)]
      (by decide)⟩

/-- C3 (confirmed): under the data-model field widths (intended name at
most 32 characters, accessKeyId exactly 32, secretAccessKey at most 64),
a reconciliation run performs no submission if and only if the observed
record exists and its (name, accessKeyId, secretAccessKey) tuple equals
the intended one field-wise; otherwise it performs exactly one
submission carrying the intended record's encoding. -/
theorem c3_try_commit_noop_iff (intended : Bucket) (raw : Option Str)
    (hn : intended.name.length ≤ 32)
    (hk : intended.access_key_id.length = 32)
    (hs : intended.secret_access_key.length ≤ 64) :
    (try_commit (raw.bind get_commitment) intended = [] ↔
      ∃ c, raw.bind get_commitment = some c ∧ c.name = intended.name ∧
        c.access_key_id = intended.access_key_id ∧
        c.secret_access_key = intended.secret_access_key) ∧
    (try_commit (raw.bind get_commitment) intended = [] ∨
      try_commit (raw.bind get_commitment) intended = [commit intended]) := by
  refine ⟨?_, try_commit_cases _ _⟩
  cases raw with
  | none => simp [try_commit]
  | some s =>
      show try_commit (get_commitment s) intended = [] ↔
        ∃ c, get_commitment s = some c ∧ _
      cases hc : get_commitment s with
      | none => simp [try_commit]
      | some c =>
          obtain ⟨w1, w2, w3, hcat⟩ := get_commitment_widths hc
          constructor
          · intro h
            by_cases he : intended.name ++ intended.access_key_id
                ++ intended.secret_access_key
                = c.name ++ c.access_key_id ++ c.secret_access_key
            · have hlen := congrArg List.length he
              simp only [List.length_append, w1, w2, w3, hk] at hlen
              have hnl : intended.name.length = 32 := by omega
              obtain ⟨e1, e2⟩ := List.append_inj he
                (by simp [List.length_append, hnl, w1, hk, w2])
              obtain ⟨e3, e4⟩ := List.append_inj e1 (by rw [hnl, w1])
              exact ⟨c, rfl, e3.symm, e4.symm, e2.symm⟩
            · have hne : try_commit (some c) intended = [commit intended] := by
                simp only [try_commit, if_neg he]
              rw [hne] at h
              exact absurd h (List.cons_ne_nil _ _)
          · rintro ⟨c', hc', f1, f2, f3⟩
            have hcc : c = c' := Option.some.inj hc'
            have heq : intended.name ++ intended.access_key_id
                ++ intended.secret_access_key
                = c.name ++ c.access_key_id ++ c.secret_access_key := by
              rw [hcc, f1, f2, f3]
            simp only [try_commit, if_pos heq]

/-- C3 witness: the reconciliation characterisation applied to a
concrete intended record and a matching ledger payload. -/
theorem c3_try_commit_noop_iff_witness :
    (try_commit ((some (commit bC)).bind get_commitment) bC = [] ↔
      ∃ c, (some (commit bC)).bind get_commitment = some c ∧
        c.name = bC.name ∧ c.access_key_id = bC.access_key_id ∧
        c.secret_access_key = bC.secret_access_key) ∧
    (try_commit ((some (commit bC)).bind get_commitment) bC = [] ∨
      try_commit ((some (commit bC)).bind get_commitment) bC
        = [commit bC]) :=
  c3_try_commit_noop_iff bC (some (commit bC)) (by decide) (by decide)
    (by decide)

/-- C4 (amended): bulk decoding of a wire payload fails exactly when the
hex-then-utf8 stage (after stripping an optional 0x marker) fails or the
decoded text, after stripping leading and trailing whitespace, does not
have length exactly 128; on success the record is the fixed slicing of
the stripped text, with no further validation of character content. (As
originally stated the claim is false: the code strips whitespace before
the length check, so a decoded text of length other than 128 can still
be accepted.) -/
theorem c4_decode_field_iff :
    (∀ raw : Str, decode_field raw = none ↔
      (hexUtf8 raw = none ∨
        ∃ t, hexUtf8 raw = some t ∧ (pystrip t).length ≠ 128)) ∧
    (∀ raw t : Str, hexUtf8 raw = some t → (pystrip t).length = 128 →
      decode_field raw = some (bucketOfConcat (pystrip t))) := by
  constructor
  · intro raw
    unfold decode_field
    cases h : hexUtf8 raw with
    | none => simp
    | some t => by_cases hl : (pystrip t).length = 128 <;> simp [hl]
  · intro raw t h hl
    unfold decode_field
    rw [h]
    simp [hl]

/-- C4 counterexample: a hex payload whose utf-8 decoding has length 129
(a 128-character text followed by a newline) is nevertheless decoded
successfully, because the length check runs after whitespace stripping. -/
theorem c4_decode_field_strip_cex :
    hexUtf8 rawTrail = some textTrail ∧ textTrail.length = 129 ∧
      decode_field rawTrail ≠ none := by decide

/-- C4 witness: the success clause applied to a concrete well-formed
payload. -/
theorem c4_decode_field_iff_witness :
    decode_field rawGood = some (bucketOfConcat (pystrip textGood)) :=
  c4_decode_field_iff.2 rawGood textGood (by decide) (by decide)

/-- C5 (confirmed): a slot is a peer exactly when it is a key of the
commitment index and its stake in the table is at most 10000; on the
spec's example index and stakes the peer list is [1, 3]. -/
theorem c5_update_peers_iff :
    (∀ (cs : List (Nat × Bucket)) (stakes : List (Nat × Int))
        (uid : Nat) (s : Int), dictGet stakes uid = some s →
        (uid ∈ update_peers_with_buckets cs stakes ↔
          uid ∈ cs.map Prod.fst ∧ s ≤ 10000)) ∧
    update_peers_with_buckets exIndex exStakes = [1, 3] := by
  refine ⟨?_, by decide⟩
  intro cs stakes uid s h
  simp [update_peers_with_buckets, List.mem_filter, h]

/-- C5 witness: the classification applied to slot 3 of the example. -/
theorem c5_update_peers_iff_witness :
    3 ∈ update_peers_with_buckets exIndex exStakes ↔
      3 ∈ exIndex.map Prod.fst ∧ (9999 : Int) ≤ 10000 :=
  c5_update_peers_iff.1 exIndex exStakes 3 9999 (by decide)

/-- C6 (confirmed): after any block notification the handler leaves the
clock at exactly the notified block and its floor-divided window; in
particular with window length 100 a 199 to 200 update moves the window
from 1 to 2 and a 150 to 180 update leaves it at 1. -/
theorem c6_block_handler_window :
    (∀ (bpw : Nat) (st : Clock) (n : Nat), 0 < bpw →
        block_handler bpw st n = ⟨n, n / bpw⟩) ∧
    block_handler 100 ⟨199, 1⟩ 200 = ⟨200, 2⟩ ∧
    block_handler 100 ⟨150, 1⟩ 180 = ⟨180, 1⟩ := by
  refine ⟨?_, by decide, by decide⟩
  intro bpw st n _
  unfold block_handler
  dsimp only
  split
  · rfl
  · rename_i h
    rw [not_ne_iff] at h
    cases st
    simp_all

/-- C6 witness: the window invariant applied to the 199 to 200 update. -/
theorem c6_block_handler_window_witness :
    block_handler 100 ⟨199, 1⟩ 200 = ⟨200, 200 / 100⟩ :=
  c6_block_handler_window.1 100 ⟨199, 1⟩ 200 (by decide)

/-- C7 (confirmed): an entry whose payload fails to decode only loses
that entry, for any batch around it; concretely a malformed length-100
payload is dropped while its well-formed sibling in the same batch is
indexed. -/
theorem c7_bulk_skip_bad_entry :
    (∀ (hk : List (Str × Nat)) (l1 l2 : List (Str × Option Str))
        (e : Str × Option Str),
        (∀ raw, e.2 = some raw → decode_field raw = none) →
        get_commitments hk (l1 ++ e :: l2)
          = get_commitments hk (l1 ++ l2)) ∧
    get_commitments exHk exEntries = [(2, bucketOfConcat textGood)] ∧
    (hexUtf8 rawBad).map List.length = some 100 := by
  refine ⟨?_, by decide, by decide⟩
  intro hk l1 l2 e he
  have hstep : ∀ acc, commit_step hk acc e = acc := by
    intro acc
    rcases h1 : dictGet hk e.1 with - | uid
    · simp [commit_step, h1]
    · rcases h2 : e.2 with - | raw
      · simp [commit_step, h1, h2]
      · simp [commit_step, h1, h2, he raw h2]
  unfold get_commitments
  rw [List.foldl_append, List.foldl_append, List.foldl_cons, hstep]

/-- C7 witness: the containment theorem applied to the concrete batch
with a malformed first entry. -/
theorem c7_bulk_skip_bad_entry_witness :
    get_commitments exHk
        ([] ++ (hkey1, some rawBad) :: [(hkey2, some rawGood)])
      = get_commitments exHk ([] ++ [(hkey2, some rawGood)]) :=
  c7_bulk_skip_bad_entry.1 exHk [] [(hkey2, some rawGood)]
    (hkey1, some rawBad)
    (fun raw h => by
      have h' : some rawBad = some raw := h
      rw [← Option.some.inj h']
      decide)

/-- C8 (amended): when the intended record has its name equal to its
accountId and canonical field widths 32, 32 and 64, two reconciliation
passes in a row, the second reading the ledger state the first left,
publish at most once in total: zero times when the ledger already
matches, once otherwise. (As originally stated, exactly one publish from
any ledger state, the claim is false: a matching ledger yields zero
publishes, and an intended record whose name differs from its accountId
republishes on every pass.) -/
theorem c8_reconcile_at_most_one (ledger : Option Str) (b : Bucket)
    (hn : b.name = b.account_id) (ha : b.account_id.length = 32)
    (hk : b.access_key_id.length = 32)
    (hs : b.secret_access_key.length = 64) :
    reconcile_twice_pubs ledger b ≤ 1 := by
  have hrt : get_commitment (commit b)
      = some ⟨b.account_id, b.account_id, b.access_key_id,
          b.secret_access_key⟩ :=
    get_commitment_concat _ _ _ ha hk hs
  have hsecond : try_commit (get_commitment (commit b)) b = [] := by
    rw [hrt]
    show (if b.name ++ b.access_key_id ++ b.secret_access_key
        = b.account_id ++ b.access_key_id ++ b.secret_access_key
        then ([] : List Str) else [commit b]) = []
    rw [if_pos (by rw [hn])]
  rcases try_commit_cases (ledger.bind get_commitment) b with h | h
  · simp [reconcile_twice_pubs, reconcile_once, h]
  · simp [reconcile_twice_pubs, reconcile_once, h, hsecond]

/-- C8 counterexample: from an empty ledger a canonical-width record
whose name differs from its accountId is published twice by two
successive passes, and from an already-matching ledger a canonical
record is published zero times; neither total is one. -/
theorem c8_reconcile_exactly_one_cex :
    reconcile_twice_pubs none bMism = 2 ∧
      reconcile_twice_pubs (some (commit bC)) bC = 0 := by decide

/-- C8 witness: the at-most-one bound applied to a concrete canonical
record over an unreadable ledger. -/
theorem c8_reconcile_at_most_one_witness :
    reconcile_twice_pubs none bC ≤ 1 :=
  c8_reconcile_at_most_one none bC (by decide) (by decide) (by decide)
    (by decide)

/-- C9 (amended): commit performs no width validation and cannot fail
with an encoding error: for any record whose accountId exceeds 32
characters while the other fields have canonical widths it still submits
exactly the concatenated payload, whose length exceeds 128 and which the
point decoder then rejects. (As originally stated the claim is false: no
EncodingError path exists, the oversized serialization is produced and
submitted.) -/
theorem c9_commit_no_width_check (b : Bucket)
    (ha : 32 < b.account_id.length) (hk : b.access_key_id.length = 32)
    (hs : b.secret_access_key.length = 64) :
    commit_submissions b = [commit b] ∧
      get_commitment (commit b) = none := by
  refine ⟨rfl, ?_⟩
  have hne : (commit b).length ≠ 128 := by
    simp only [commit, List.length_append, hk, hs]
    omega
  simp [get_commitment, hne]

/-- C9 counterexample: a record with a 33-character accountId for which
commit still performs a submission, of length 129, instead of failing. -/
theorem c9_commit_no_width_check_cex :
    32 < bOver.account_id.length ∧ commit_submissions bOver ≠ [] ∧
      (commit bOver).length = 129 := by decide

/-- C9 witness: the no-validation theorem applied to the concrete
oversized record. -/
theorem c9_commit_no_width_check_witness :
    commit_submissions bOver = [commit bOver] ∧
      get_commitment (commit bOver) = none :=
  c9_commit_no_width_check bOver (by decide) (by decide) (by decide)

/-- C10 (confirmed): a UID that is a key of the commitment index but is
absent from the stake table is treated as having stake 0 and is included
in the peer list. -/
theorem c10_peers_default_stake (cs : List (Nat × Bucket))
    (stakes : List (Nat × Int)) (uid : Nat)
    (h1 : uid ∈ cs.map Prod.fst) (h2 : dictGet stakes uid = none) :
    uid ∈ update_peers_with_buckets cs stakes := by
  simp [update_peers_with_buckets, List.mem_filter, h1, h2]

/-- C10 witness: slot 7 has a bucket but no stake entry and is still a
peer. -/
theorem c10_peers_default_stake_witness :
    7 ∈ update_peers_with_buckets [(7, bC)] [(1, 500)] :=
  c10_peers_default_stake [(7, bC)] [(1, 500)] 7 (by decide) (by decide)

end Templar
